import Mathlib

/-!
Shallow embedding of the go-sdk ERC-1155 module (pkg/thirdweb/erc1155.go) and
the ERC-721 signer plumbing (nftlabs/erc721.go), together with theorems about
the batch metadata-resolution pipeline, its error handling, and the signer
guard.

Modelling conventions:
- Go `*big.Int` and `int` are both modelled as `Int`; the `Int64()` narrowing
  conversions in the source are identities in the model (no claim concerns
  integer overflow).
- External collaborators (the generated contract bindings reached through
  `contractWrapper.abi`, the storage gateway, go-ethereum address parsing) are
  fields of a record of oracle functions, so theorems quantify over every
  possible collaborator behaviour.
- Fallible Go calls returning `(T, error)` become `Except e T`.
- The goroutine fan-out / unbuffered-channel fan-in of `fetchEditionsByTokenId`
  is modelled by the multiset of per-worker results: the collector receives
  the `total` worker results in an arbitrary arrival order, i.e. in any
  permutation of the launch-order list `workerResults`.  Theorems about the
  concurrent routine quantify over that permutation.
-/

/-- Failure of a read-only contract call made through the chain reader
(`contractWrapper.abi.*` returning a non-nil `error`).  Opaque payload. -/
inductive ChainErr where
  | network (msg : String)
  deriving DecidableEq

/-- Failure of the Metadata Store collaborator (`storage`).  The spec lists the
failure modes: not-found, transient-network, malformed-document.  A Go storage
error value is never of the `NotFoundError` type produced by the resolver, so
store errors live in their own type. -/
inductive StoreErr where
  | storeNotFound
  | transient (msg : String)
  | malformed (msg : String)
  deriving DecidableEq

/-- The error values surfaced by the ERC-1155 module: `NotFoundError{tokenId}`
from `getTokenMetadata`, a propagated Metadata Store failure, or a propagated
chain-call failure. -/
inductive Err where
  | notFound (tokenId : Int)
  | store (e : StoreErr)
  | chain (e : ChainErr)
  deriving DecidableEq

/-- The JSON-like document returned by the Metadata Store for a content URI. -/
structure MetadataDoc where
  name : String
  description : String
  image : String
  deriving DecidableEq

/-- Typed metadata record assembled by the Token Metadata Resolver
(`NFTMetadata` in the source; fields beyond those used by the claims are
summarised by the document fields). -/
structure NFTMetadata where
  Id : Int
  Name : String
  Description : String
  Image : String
  deriving DecidableEq

/-- `EditionMetadata`: metadata plus live supply. -/
structure EditionMetadata where
  Metadata : NFTMetadata
  Supply : Int
  deriving DecidableEq

/-- `EditionMetadataOwner`: per-holder view returned by `GetOwned`. -/
structure EditionMetadataOwner where
  Metadata : NFTMetadata
  Supply : Int
  Owner : String
  QuantityOwned : Int
  deriving DecidableEq

/-- `EditionResult`: the per-worker message sent on the fan-in channel
(`{nft, nil}` on success, `{nil, err}` on failure). -/
structure EditionResult where
  nft : Option EditionMetadata
  err : Option Err
  deriving DecidableEq

/-- The ERC-1155 module.  In the source this struct holds a contract wrapper
and a storage handle; here it is the record of the collaborator oracles those
two expose, so a value of this type fixes one complete collaborator
behaviour:
- `totalSupply`       : `contractWrapper.abi.TotalSupply(opts, tokenId)`
- `nextTokenIdToMint` : `contractWrapper.abi.NextTokenIdToMint(opts)`
- `uri`               : `contractWrapper.abi.Uri(opts, tokenId)`
- `balanceOfBatch`    : `contractWrapper.abi.BalanceOfBatch(opts, owners, ids)`
- `signerAddress`     : `contractWrapper.GetSignerAddress().String()`
- `hexToAddress`      : `common.HexToAddress` (go-ethereum collaborator)
- `storage`           : the Metadata Store (`fetch(uri)`) -/
structure ERC1155 where
  totalSupply : Int → Except ChainErr Int
  nextTokenIdToMint : Except ChainErr Int
  uri : Int → Except ChainErr String
  balanceOfBatch : List String → List Int → Except ChainErr (List Int)
  signerAddress : String
  hexToAddress : String → String
  storage : String → Except StoreErr MetadataDoc

instance {ε α : Type} [DecidableEq ε] [DecidableEq α] :
    DecidableEq (Except ε α) := fun x y =>
  match x, y with
  | .error a, .error b =>
      if h : a = b then .isTrue (by rw [h])
      else .isFalse (fun hc => h (Except.error.inj hc))
  | .error _, .ok _ => .isFalse (fun hc => Except.noConfusion hc)
  | .ok _, .error _ => .isFalse (fun hc => Except.noConfusion hc)
  | .ok a, .ok b =>
      if h : a = b then .isTrue (by rw [h])
      else .isFalse (fun hc => h (Except.ok.inj hc))

/-- Modelled from the spec: `fetchTokenMetadata(tokenId, uri, storage)` is
code of this repository that is not under src/ (only its caller
`getTokenMetadata` is).  Per the spec, the resolver "dereference[s] the URI
through the Metadata Store" and "assembles a typed metadata record" whose id
is the requested TokenId; "Failures here propagate as a store-specific error
(distinct from NotFound)". -/
def fetchTokenMetadata (tokenId : Int) (uri : String)
    (storage : String → Except StoreErr MetadataDoc) : Except Err NFTMetadata :=
  match storage uri with
  | .error e => .error (.store e)
  | .ok doc =>
      .ok { Id := tokenId, Name := doc.name, Description := doc.description,
            Image := doc.image }

/-- `getTokenMetadata`: read the token URI from the chain; any failure there
becomes `NotFoundError{tokenId}`; otherwise resolve the URI through the store
and propagate its outcome. -/
def ERC1155.getTokenMetadata (erc1155 : ERC1155) (tokenId : Int) :
    Except Err NFTMetadata :=
  match erc1155.uri tokenId with
  | .error _ => .error (.notFound tokenId)
  | .ok u =>
      match fetchTokenMetadata tokenId u erc1155.storage with
      | .error e => .error e
      | .ok nft => .ok nft

/-- `Get`: `supply := 0; if ts, err := TotalSupply(tokenId); err == nil
{ supply = ts }` — a TotalSupply failure is swallowed and supply stays 0 —
then resolve the metadata, propagating its error. -/
def ERC1155.Get (erc1155 : ERC1155) (tokenId : Int) :
    Except Err EditionMetadata :=
  let supply : Int :=
    match erc1155.totalSupply tokenId with
    | .ok totalSupply => totalSupply
    | .error _ => 0
  match erc1155.getTokenMetadata tokenId with
  | .error e => .error e
  | .ok metadata => .ok { Metadata := metadata, Supply := supply }

/-- `GetTotalCount`: pass-through to `NextTokenIdToMint`. -/
def ERC1155.GetTotalCount (erc1155 : ERC1155) : Except ChainErr Int :=
  erc1155.nextTokenIdToMint

/-- The body of one goroutine of `fetchEditionsByTokenId`: call `Get` and wrap
the outcome as the message sent on the channel.  NOTE: as in the source, the
argument is the loop index `i`, not `tokenIds[i]`. -/
def workerResult (erc1155 : ERC1155) (id : Int) : EditionResult :=
  match erc1155.Get id with
  | .ok nft => { nft := some nft, err := none }
  | .error err => { nft := none, err := some err }

/-- The arguments the launched goroutines pass to `Get`: the loop runs
`for i := 0; i < total; i++ { go func(id int) {...}(i) }`, so the i-th unit
resolves the index `i` — the values in `tokenIds` are never read. -/
def launchedCalls (tokenIds : List Int) : List Int :=
  (List.range tokenIds.length).map Int.ofNat

/-- The multiset of messages the collector will receive, listed in launch
order; the channel delivers them in an arbitrary permutation of this list. -/
def workerResults (erc1155 : ERC1155) (tokenIds : List Int) :
    List EditionResult :=
  (launchedCalls tokenIds).map (workerResult erc1155)

/-- The fan-in tail of `fetchEditionsByTokenId`, applied to the collected
results in their arrival order: filter out errors (`res.nft != nil`), then
`sort.SliceStable` ascending by `Metadata.Id` (a stable sort with strict less
`Id i < Id j` coincides with a stable merge sort with `Id i <= Id j`). -/
def collectEditions (results : List EditionResult) : List EditionMetadata :=
  let nfts := results.filterMap (fun res => res.nft)
  nfts.mergeSort (fun a b => decide (a.Metadata.Id ≤ b.Metadata.Id))

/-- `fetchEditionsByTokenId`: fan out one worker per input id, collect all
results, filter, sort, and return with a nil error.  This is the run in which
results arrive in launch order; theorems quantify over arrival order through
`collectEditions` applied to any permutation of `workerResults`. -/
def fetchEditionsByTokenId (erc1155 : ERC1155) (tokenIds : List Int) :
    Except Err (List EditionMetadata) :=
  .ok (collectEditions (workerResults erc1155 tokenIds))

/-- The id list `[0..N)` that `GetAll` builds (`for i := 0; i < int(totalCount);
i++`); empty when the count is non-positive. -/
def tokenIdRange (totalCount : Int) : List Int :=
  (List.range totalCount.toNat).map Int.ofNat

/-- `GetAll`: enumerate via `GetTotalCount`, propagating its error; otherwise
batch-resolve ids `[0..N)`. -/
def ERC1155.GetAll (erc1155 : ERC1155) : Except Err (List EditionMetadata) :=
  match erc1155.GetTotalCount with
  | .error err => .error (.chain err)
  | .ok totalCount => fetchEditionsByTokenId erc1155 (tokenIdRange totalCount)

/-- The `ids` slice `GetOwned` builds: `[0..maxId)`. -/
def ownedIds (maxId : Int) : List Int :=
  (List.range maxId.toNat).map Int.ofNat

/-- The `owners` slice `GetOwned` builds: `maxId` copies of
`common.HexToAddress(address)`. -/
def ownedOwners (erc1155 : ERC1155) (address : String) (maxId : Int) :
    List String :=
  (List.range maxId.toNat).map (fun _ => erc1155.hexToAddress address)

/-- The body of one iteration of the `GetOwned` collection loop: resolve the
id via `Get`; on success build the owner view tagged with the owner address
and the balance from the response; on failure skip the entry. -/
def ownedEntry (erc1155 : ERC1155) (address : String) (balance : Int)
    (tokenId : Int) : Option EditionMetadataOwner :=
  match erc1155.Get tokenId with
  | .ok metadata =>
      some { Metadata := metadata.Metadata, Supply := metadata.Supply,
             Owner := address, QuantityOwned := balance }
  | .error _ => none

/-- The collection loop of `GetOwned`: `for index, balance := range balances`,
resolve `ids[index]` via `Get`, keep successes, tag with owner and balance.
(Go would panic if the response were longer than `ids`; the model reads a
default there, and theorems about conforming responses assume equal length.) -/
def ownedLoop (erc1155 : ERC1155) (address : String) (ids : List Int)
    (balances : List Int) : List EditionMetadataOwner :=
  balances.enum.filterMap (fun p =>
    ownedEntry erc1155 address p.2 (ids.getD p.1 0))

/-- The first statement of `GetOwned`: `if address == "" { address =
GetSignerAddress().String() }`. -/
def substAddress (erc1155 : ERC1155) (address : String) : String :=
  if address = "" then erc1155.signerAddress else address

/-- `GetOwned`: substitute the signer address for an empty input address, read
the mintable-id upper bound, issue one batched balance query over the full id
range, then resolve each response entry, skipping per-id failures. -/
def ERC1155.GetOwned (erc1155 : ERC1155) (address : String) :
    Except Err (List EditionMetadataOwner) :=
  match erc1155.nextTokenIdToMint with
  | .error err => .error (.chain err)
  | .ok maxId =>
      match erc1155.balanceOfBatch
          (ownedOwners erc1155 (substAddress erc1155 address) maxId)
          (ownedIds maxId) with
      | .error err => .error (.chain err)
      | .ok balances =>
          .ok (ownedLoop erc1155 (substAddress erc1155 address)
            (ownedIds maxId) balances)

/- ===== nftlabs/erc721.go: signer plumbing and the state-changing guard ===== -/

/-- An ECDSA private key, opaque to this module. -/
structure PrivateKey where
  keyData : String
  deriving DecidableEq

/-- `SdkOptions` (only the field the source reads). -/
structure SdkOptions where
  IpfsGatewayUrl : String
  deriving DecidableEq

/-- Errors surfaced by the ERC-721 module: `NoSignerError{typeName, Err}` from
`SetPrivateKey`, the spec's `SignerMissing` from the state-changing guard, and
propagated chain failures. -/
inductive NftErr where
  | noSigner (typeName : String) (errMsg : String)
  | signerMissing
  | chainE (e : ChainErr)
  deriving DecidableEq

/-- The collaborators of the ERC-721 module: binding construction
(`abi.NewERC721`) and private-key parsing (`processPrivateKey`, which yields
the key and its public address). -/
structure EthEnv where
  newERC721 : String → Except ChainErr Unit
  processPrivateKey : String → Except String (PrivateKey × String)

/-- `erc721SdkModule` state (client and binding handles are collapsed into the
environment; `privateKey` is the nilable signing key, `none` until
`SetPrivateKey` succeeds). -/
structure Erc721SdkModule where
  Address : String
  Options : SdkOptions
  gatewayUrl : String
  privateKey : Option PrivateKey
  signerAddress : String
  deriving DecidableEq

/-- `newErc721SdkModule`: default the gateway URL when empty, construct the
binding (propagating its failure), and return a module whose `privateKey` and
`signerAddress` are Go zero values (nil / zero address). -/
def newErc721SdkModule (env : EthEnv) (address : String) (opt : SdkOptions) :
    Except ChainErr Erc721SdkModule :=
  let opt :=
    if opt.IpfsGatewayUrl = "" then
      { IpfsGatewayUrl := "https://cloudflare-ipfs.com/ipfs/" }
    else opt
  match env.newERC721 address with
  | .error err => .error err
  | .ok _ =>
      .ok { Address := address, Options := opt,
            gatewayUrl := opt.IpfsGatewayUrl, privateKey := none,
            signerAddress := "" }

/-- `SetPrivateKey`: parse the key; on failure return
`NoSignerError{"erc721", err}` leaving the module unchanged; on success store
the key and its public address (Go mutates in place; modelled as
state-passing). -/
def SetPrivateKey (env : EthEnv) (sdk : Erc721SdkModule)
    (privateKey : String) : Except NftErr Erc721SdkModule :=
  match env.processPrivateKey privateKey with
  | .error err => .error (.noSigner "erc721" err)
  | .ok pair =>
      .ok { sdk with privateKey := some pair.1, signerAddress := pair.2 }

/-- Modelled from the spec: the ERC-721 state-changing call path (transfer,
burn, approval) is code of this repository that is not under src/ — only its
signer plumbing (`SetPrivateKey`, `getSigner`) is.  Per the spec, "a
state-changing call issued with no configured signer fails with
`SignerMissing` before any network call is attempted"; with a key configured
the call signs and submits through the chain writer.  `submit` is the chain
writer (its argument is the signing key); the second component of the result
counts the network calls attempted. -/
def stateChangingCall (sdk : Erc721SdkModule)
    (submit : PrivateKey → Except ChainErr Int) : Except NftErr Int × Nat :=
  match sdk.privateKey with
  | none => (.error .signerMissing, 0)
  | some k =>
      match submit k with
      | .error e => (.error (.chainE e), 1)
      | .ok tx => (.ok tx, 1)

/-- The filtered successes, in launch order: exactly the `Get` successes over
the launched indices. -/
def canonicalNfts (erc1155 : ERC1155) (tokenIds : List Int) :
    List EditionMetadata :=
  (List.range tokenIds.length).filterMap
    (fun i => (erc1155.Get (Int.ofNat i)).toOption)

/-! ### Concrete collaborator behaviours used by witnesses -/

/-- A store that fails for the URI of token 2 and succeeds elsewhere. -/
def sampleStore : String → Except StoreErr MetadataDoc := fun u =>
  if u = "u2" then .error .storeNotFound
  else .ok { name := "n", description := "d", image := u }

/-- Collaborator behaviour where TotalSupply fails at id 0, the URI read
fails at id 1, and the store fetch fails for id 2; everything else
succeeds. -/
def chainA : ERC1155 :=
  { totalSupply := fun t => if t = 0 then .error (.network "ts") else .ok (t + 10)
  , nextTokenIdToMint := .ok 3
  , uri := fun t =>
      if t = 1 then .error (.network "down")
      else if t = 2 then .ok "u2" else .ok "u"
  , balanceOfBatch := fun _ ids => .ok (ids.map (fun i => i + 1))
  , signerAddress := "0xS"
  , hexToAddress := fun s => s
  , storage := sampleStore }

/-- Collaborator behaviour where only token id 5 resolves successfully. -/
def chainB : ERC1155 :=
  { totalSupply := fun _ => .ok 1
  , nextTokenIdToMint := .ok 0
  , uri := fun t => if t = 5 then .ok "u" else .error (.network "x")
  , balanceOfBatch := fun _ _ => .ok []
  , signerAddress := "0xS"
  , hexToAddress := fun s => s
  , storage := sampleStore }

/-- Collaborator behaviour where every URI read fails. -/
def chainC : ERC1155 :=
  { totalSupply := fun _ => .ok 1
  , nextTokenIdToMint := .ok 2
  , uri := fun _ => .error (.network "x")
  , balanceOfBatch := fun _ _ => .ok []
  , signerAddress := "0xS"
  , hexToAddress := fun s => s
  , storage := sampleStore }

/-- A concrete collaborator environment for the ERC-721 module. -/
def env0 : EthEnv :=
  { newERC721 := fun _ => .ok ()
  , processPrivateKey := fun _ => .error "bad key" }

/-- A module with no signing key configured (the state after construction). -/
def sdk0 : Erc721SdkModule :=
  { Address := "0xC", Options := { IpfsGatewayUrl := "g" }, gatewayUrl := "g",
    privateKey := none, signerAddress := "" }

/-- A chain writer that would accept any submission. -/
def submit0 : PrivateKey → Except ChainErr Int := fun _ => .ok 1

/-! ### Helper lemmas about the batch pipeline -/

/-- Whenever `Get` succeeds, the metadata id is the requested token id. -/
theorem Get_ok_id (erc1155 : ERC1155) (tokenId : Int) (em : EditionMetadata)
    (h : erc1155.Get tokenId = .ok em) : em.Metadata.Id = tokenId := by
  unfold ERC1155.Get ERC1155.getTokenMetadata at h
  cases hu : erc1155.uri tokenId with
  | error er => simp [hu] at h
  | ok u =>
      unfold fetchTokenMetadata at h
      cases hs : erc1155.storage u with
      | error er => simp [hu, hs] at h
      | ok doc =>
          simp [hu, hs] at h
          rw [← h]

theorem workerResult_nft (erc1155 : ERC1155) (id : Int) :
    (workerResult erc1155 id).nft = (erc1155.Get id).toOption := by
  unfold workerResult
  cases erc1155.Get id <;> rfl

theorem exceptToOption_eq_some {ε α : Type} {x : Except ε α} {a : α} :
    x.toOption = some a ↔ x = .ok a := by
  cases x <;> simp [Except.toOption]

theorem filterMap_workerResults (erc1155 : ERC1155) (tokenIds : List Int) :
    (workerResults erc1155 tokenIds).filterMap (fun res => res.nft)
      = canonicalNfts erc1155 tokenIds := by
  unfold workerResults canonicalNfts launchedCalls
  rw [List.filterMap_map, List.filterMap_map]
  congr 1
  funext i
  exact workerResult_nft erc1155 (Int.ofNat i)

theorem pairwise_canonicalNfts (erc1155 : ERC1155) (tokenIds : List Int) :
    (canonicalNfts erc1155 tokenIds).Pairwise
      (fun a b => a.Metadata.Id < b.Metadata.Id) := by
  unfold canonicalNfts
  rw [List.pairwise_filterMap]
  refine (List.pairwise_lt_range tokenIds.length).imp ?_
  intro i j hij x hx y hy
  have hxi := Get_ok_id erc1155 _ x (exceptToOption_eq_some.mp (Option.mem_def.mp hx))
  have hyj := Get_ok_id erc1155 _ y (exceptToOption_eq_some.mp (Option.mem_def.mp hy))
  rw [hxi, hyj]
  exact Int.ofNat_lt.mpr hij

/-- Determinism of the fan-in: whatever the arrival order of the worker
results, the filtered-and-sorted output is the launch-order success list. -/
theorem collectEditions_perm (erc1155 : ERC1155) (tokenIds : List Int)
    (results : List EditionResult)
    (h : results.Perm (workerResults erc1155 tokenIds)) :
    collectEditions results = canonicalNfts erc1155 tokenIds := by
  have hperm : (collectEditions results).Perm (canonicalNfts erc1155 tokenIds) := by
    refine ((List.mergeSort_perm _ _).trans (h.filterMap _)).trans ?_
    rw [filterMap_workerResults]
  have hcan : (canonicalNfts erc1155 tokenIds).Pairwise
      (fun a b => a.Metadata.Id < b.Metadata.Id) :=
    pairwise_canonicalNfts erc1155 tokenIds
  have hle : (collectEditions results).Pairwise
      (fun a b => a.Metadata.Id ≤ b.Metadata.Id) := by
    have hs := @List.sorted_mergeSort EditionMetadata
      (fun a b => decide (a.Metadata.Id ≤ b.Metadata.Id))
      (by intro a b c hab hbc
          simp only [decide_eq_true_eq] at hab hbc ⊢
          exact le_trans hab hbc)
      (by intro a b
          simp only [Bool.or_eq_true, decide_eq_true_eq]
          exact le_total _ _)
      (results.filterMap (fun res => res.nft))
    simpa only [decide_eq_true_eq] using hs
  have hne : (collectEditions results).Pairwise
      (fun a b => a.Metadata.Id ≠ b.Metadata.Id) := by
    have h1 : ((canonicalNfts erc1155 tokenIds).map
        (fun m => m.Metadata.Id)).Pairwise (fun a b => a ≠ b) :=
      (List.pairwise_map.mpr hcan).imp (fun hab => ne_of_lt hab)
    have h2 : ((collectEditions results).map
        (fun m => m.Metadata.Id)).Pairwise (fun a b => a ≠ b) :=
      ((hperm.map (fun m => m.Metadata.Id)).pairwise_iff
        (fun hab => hab.symm)).mpr h1
    exact List.pairwise_map.mp h2
  have hlt : (collectEditions results).Pairwise
      (fun a b => a.Metadata.Id < b.Metadata.Id) :=
    (hle.and hne).imp (fun hab => lt_of_le_of_ne hab.1 hab.2)
  haveI : IsAntisymm EditionMetadata
      (fun a b => a.Metadata.Id < b.Metadata.Id) :=
    ⟨fun a b h1 h2 => absurd (h1.trans h2) (lt_irrefl _)⟩
  exact List.eq_of_perm_of_sorted hperm hlt hcan

/-- The ids of the launch-order success list are exactly the indices whose
resolution succeeded, in ascending order. -/
theorem map_id_filterMap (erc1155 : ERC1155) (l : List Nat) :
    ((l.filterMap (fun i => (erc1155.Get (Int.ofNat i)).toOption)).map
        (fun m => m.Metadata.Id))
      = (l.filter (fun i => (erc1155.Get (Int.ofNat i)).isOk)).map Int.ofNat := by
  induction l with
  | nil => rfl
  | cons a l ih =>
      rw [List.filterMap_cons, List.filter_cons]
      cases h : erc1155.Get (Int.ofNat a) with
      | error er =>
          have ht : (Except.error er : Except Err EditionMetadata).toOption
              = none := rfl
          have hb : (Except.error er : Except Err EditionMetadata).isOk
              = false := rfl
          rw [ht, hb]
          simpa using ih
      | ok em =>
          have hid := Get_ok_id erc1155 _ em h
          have ht : (Except.ok em : Except Err EditionMetadata).toOption
              = some em := rfl
          have hb : (Except.ok em : Except Err EditionMetadata).isOk
              = true := rfl
          rw [ht, hb]
          simp only [if_true, List.map_cons, hid]
          rw [ih]

/-! ### Claim theorems -/

/-- Claim C1: for every non-negative N, every collaborator behaviour (hence
any mix of succeeding and failing per-id resolutions) and every arrival order
of the concurrent results, the batch output of GetAll over ids [0..N) has
strictly ascending token ids, and its id list is exactly the ascending list
of the ids in [0..N) whose resolution succeeded — no duplicates, no
extras. -/
theorem getAll_batch_ids_ascending_exact (erc1155 : ERC1155) (n : Int)
    (results : List EditionResult)
    (hn : erc1155.nextTokenIdToMint = .ok n)
    (hperm : results.Perm (workerResults erc1155 (tokenIdRange n))) :
    ((collectEditions results).map (fun m => m.Metadata.Id)
        = ((List.range n.toNat).filter
            (fun i => (erc1155.Get (Int.ofNat i)).isOk)).map Int.ofNat)
    ∧ (collectEditions results).Pairwise
        (fun a b => a.Metadata.Id < b.Metadata.Id)
    ∧ erc1155.GetAll = .ok (collectEditions results) := by
  have hc := collectEditions_perm erc1155 (tokenIdRange n) results hperm
  have hlen : (tokenIdRange n).length = n.toNat := by
    unfold tokenIdRange
    rw [List.length_map, List.length_range]
  refine ⟨?_, ?_, ?_⟩
  · rw [hc]
    unfold canonicalNfts
    rw [hlen]
    exact map_id_filterMap erc1155 _
  · rw [hc]
    exact pairwise_canonicalNfts erc1155 _
  · have hga : erc1155.GetAll = fetchEditionsByTokenId erc1155 (tokenIdRange n) := by
      unfold ERC1155.GetAll ERC1155.GetTotalCount
      rw [hn]
    rw [hga]
    unfold fetchEditionsByTokenId
    rw [hc, collectEditions_perm erc1155 (tokenIdRange n) _ (List.Perm.refl _)]

/-- Witness for C1 at a concrete behaviour: N = 3, id 0 succeeds, ids 1 and 2
fail, results taken in launch order. -/
theorem getAll_batch_ids_ascending_exact_witness :
    chainA.nextTokenIdToMint = .ok 3
    ∧ ((collectEditions (workerResults chainA (tokenIdRange 3))).map
          (fun m => m.Metadata.Id)
        = ((List.range (3 : Int).toNat).filter
            (fun i => (chainA.Get (Int.ofNat i)).isOk)).map Int.ofNat) :=
  ⟨rfl, (getAll_batch_ids_ascending_exact chainA 3
      (workerResults chainA (tokenIdRange 3)) rfl (List.Perm.refl _)).1⟩

/-- Claim C2 evaluated at its failing input: for input [5] the single launched
unit calls Get with the loop index 0, not with tokenIds[0] = 5; with a
collaborator for which id 5 resolves and id 0 does not, the batch output is
empty even though the only requested id resolves successfully. -/
theorem worker_resolves_index_not_tokenId :
    launchedCalls [(5 : Int)] = [(0 : Int)]
    ∧ (chainB.Get 5).isOk = true
    ∧ (chainB.Get 0).isOk = false
    ∧ fetchEditionsByTokenId chainB [(5 : Int)] = .ok [] := by
  refine ⟨rfl, rfl, rfl, ?_⟩
  unfold fetchEditionsByTokenId
  rw [collectEditions_perm chainB [(5 : Int)] _ (List.Perm.refl _)]
  rfl

/-- Claim C4: a batch over zero ids returns [] with a nil error and launches
no unit of work: no resolver call and no collaborator call is made. -/
theorem batch_empty_no_work (erc1155 : ERC1155) :
    fetchEditionsByTokenId erc1155 [] = .ok []
    ∧ launchedCalls ([] : List Int) = []
    ∧ workerResults erc1155 [] = [] := by
  refine ⟨?_, rfl, rfl⟩
  unfold fetchEditionsByTokenId
  rw [collectEditions_perm erc1155 [] _ (List.Perm.refl _)]
  rfl

/-- Claim C5: two runs over the same inputs with the same per-id resolution
outcomes but different arrival orders of the concurrent results return
identical sequences. -/
theorem batch_output_order_independent (erc1155 : ERC1155)
    (tokenIds : List Int) (results1 results2 : List EditionResult)
    (h1 : results1.Perm (workerResults erc1155 tokenIds))
    (h2 : results2.Perm (workerResults erc1155 tokenIds)) :
    collectEditions results1 = collectEditions results2 := by
  rw [collectEditions_perm erc1155 tokenIds results1 h1,
      collectEditions_perm erc1155 tokenIds results2 h2]

/-- Witness for C5: reversed arrival order versus launch order. -/
theorem batch_output_order_independent_witness :
    collectEditions ((workerResults chainA (tokenIdRange 3)).reverse)
      = collectEditions (workerResults chainA (tokenIdRange 3)) :=
  batch_output_order_independent chainA (tokenIdRange 3) _ _
    (List.reverse_perm _) (List.Perm.refl _)

theorem isOk_false_toOption {ε α : Type} {x : Except ε α}
    (h : x.isOk = false) : x.toOption = none := by
  cases x with
  | error er => rfl
  | ok a => exact Bool.noConfusion h

/-- Claim C3: when every launched resolution fails, the batch resolver
returns the empty sequence with a nil error (whatever the arrival order),
and GetAll returns an error exactly when the enumeration step
(GetTotalCount / NextTokenIdToMint) fails — never because of per-item
resolution failures. -/
theorem batch_total_failure_is_not_batch_failure (erc1155 : ERC1155)
    (tokenIds : List Int) (results : List EditionResult)
    (hperm : results.Perm (workerResults erc1155 tokenIds))
    (hfail : ∀ i ∈ launchedCalls tokenIds, (erc1155.Get i).isOk = false) :
    fetchEditionsByTokenId erc1155 tokenIds = .ok []
    ∧ collectEditions results = []
    ∧ (∀ e, erc1155.GetAll = .error e
        ↔ ∃ ce, e = Err.chain ce ∧ erc1155.nextTokenIdToMint = .error ce) := by
  have hcan : canonicalNfts erc1155 tokenIds = [] := by
    unfold canonicalNfts
    rw [List.filterMap_eq_nil_iff]
    intro i hi
    refine isOk_false_toOption (hfail (Int.ofNat i) ?_)
    unfold launchedCalls
    exact List.mem_map_of_mem Int.ofNat hi
  refine ⟨?_, ?_, ?_⟩
  · unfold fetchEditionsByTokenId
    rw [collectEditions_perm erc1155 tokenIds _ (List.Perm.refl _), hcan]
  · rw [collectEditions_perm erc1155 tokenIds results hperm, hcan]
  · intro e
    unfold ERC1155.GetAll ERC1155.GetTotalCount
    cases hnt : erc1155.nextTokenIdToMint with
    | error ce =>
        constructor
        · intro he
          exact ⟨ce, (Except.error.inj he).symm, rfl⟩
        · intro hex
          obtain ⟨ce2, he, hq⟩ := hex
          have hce : ce = ce2 := Except.error.inj hq
          rw [he, hce]
    | ok cnt =>
        constructor
        · intro he
          exact Except.noConfusion he
        · intro hex
          obtain ⟨ce2, he, hq⟩ := hex
          exact Except.noConfusion hq

/-- Witness for C3: every URI read fails, so both launched resolutions of
the two-id batch fail, and the batch still returns [] with a nil error. -/
theorem batch_total_failure_is_not_batch_failure_witness :
    fetchEditionsByTokenId chainC (tokenIdRange 2) = .ok [] :=
  (batch_total_failure_is_not_batch_failure chainC (tokenIdRange 2)
    (workerResults chainC (tokenIdRange 2)) (List.Perm.refl _)
    (by decide)).1

/-- Claim C6: any failure of the URI chain read makes getTokenMetadata fail
with NotFound{tokenId}; when the URI read succeeds and the Metadata Store
fetch fails, the store error is propagated and is distinct from every
NotFound error. -/
theorem getTokenMetadata_notFound_vs_store (erc1155 : ERC1155)
    (tokenId : Int) :
    ((erc1155.uri tokenId).isOk = false
      → erc1155.getTokenMetadata tokenId = .error (.notFound tokenId))
    ∧ (∀ u e, erc1155.uri tokenId = .ok u → erc1155.storage u = .error e
        → erc1155.getTokenMetadata tokenId = .error (.store e)
          ∧ ∀ t, Err.store e ≠ Err.notFound t) := by
  constructor
  · intro h
    unfold ERC1155.getTokenMetadata
    cases hu : erc1155.uri tokenId with
    | error er => rfl
    | ok u =>
        rw [hu] at h
        exact Bool.noConfusion h
  · intro u e hu hs
    refine ⟨?_, fun t hc => Err.noConfusion hc⟩
    simp only [ERC1155.getTokenMetadata, fetchTokenMetadata, hu, hs]

/-- Witness for C6: at this behaviour the URI read fails for id 1 (NotFound)
and the store fetch fails for id 2 (store error propagated). -/
theorem getTokenMetadata_notFound_vs_store_witness :
    chainA.getTokenMetadata 1 = .error (.notFound 1)
    ∧ chainA.getTokenMetadata 2 = .error (.store .storeNotFound) :=
  ⟨(getTokenMetadata_notFound_vs_store chainA 1).1 (by decide),
   ((getTokenMetadata_notFound_vs_store chainA 2).2 "u2" StoreErr.storeNotFound
      (by decide) (by decide)).1⟩

/-- Claim C7 counterexample: a collaborator behaviour at which the first
chain read of Get — the TotalSupply read for id 0 — fails, yet Get proceeds
and returns a success instead of returning that error. -/
theorem get_surfaces_first_error_cex :
    (chainA.totalSupply 0).isOk = false
    ∧ chainA.Get 0 = .ok
        { Metadata := { Id := 0, Name := "n", Description := "d", Image := "u" },
          Supply := 0 } :=
  ⟨rfl, rfl⟩

/-- Claim C7 amended: Get does not surface a TotalSupply-read failure; it
defaults the supply to 0 and proceeds, surfacing immediately exactly the first
error of the metadata-resolution path. -/
theorem get_error_policy (erc1155 : ERC1155) (tokenId : Int) :
    ((erc1155.totalSupply tokenId).isOk = false
      → erc1155.Get tokenId
          = (erc1155.getTokenMetadata tokenId).map
              (fun metadata => { Metadata := metadata, Supply := 0 }))
    ∧ (∀ e, erc1155.getTokenMetadata tokenId = .error e
        → erc1155.Get tokenId = .error e) := by
  constructor
  · intro h
    unfold ERC1155.Get
    cases hts : erc1155.totalSupply tokenId with
    | error er =>
        cases hm : erc1155.getTokenMetadata tokenId with
        | error e => rfl
        | ok m => rfl
    | ok v =>
        rw [hts] at h
        exact Bool.noConfusion h
  · intro e he
    unfold ERC1155.Get
    rw [he]

/-- Witness for C7 (amended): the TotalSupply read fails at id 0, and Get
returns exactly the metadata-resolution outcome with supply 0. -/
theorem get_error_policy_witness :
    chainA.Get 0
      = (chainA.getTokenMetadata 0).map
          (fun metadata => { Metadata := metadata, Supply := 0 }) :=
  (get_error_policy chainA 0).1 (by decide)
/-! ### Helper lemmas about the owned-tokens loop -/

/-- The collection loop, rebased at any starting index, pairs each balance
with the id at the same position. -/
theorem ownedLoop_zip_aux (erc1155 : ERC1155) (address : String)
    (ids : List Int) :
    ∀ (balances : List Int) (k : Nat), k + balances.length = ids.length →
    (List.enumFrom k balances).filterMap (fun p =>
        ownedEntry erc1155 address p.2 (ids.getD p.1 0))
      = (balances.zip (ids.drop k)).filterMap (fun q =>
          ownedEntry erc1155 address q.1 q.2) := by
  intro balances
  induction balances with
  | nil => intro k hk; rfl
  | cons b bs ih =>
      intro k hk
      simp only [List.length_cons] at hk
      have hklen : k < ids.length := by omega
      have hdrop : ids.drop k = ids.get ⟨k, hklen⟩ :: ids.drop (k + 1) :=
        List.drop_eq_getElem_cons hklen
      have hgd : ids.getD k 0 = ids.get ⟨k, hklen⟩ :=
        List.getD_eq_getElem ids 0 hklen
      rw [hdrop,
          show List.enumFrom k (b :: bs) = (k, b) :: List.enumFrom (k + 1) bs
            from rfl,
          List.zip_cons_cons, List.filterMap_cons, List.filterMap_cons,
          ih (k + 1) (by omega)]
      simp only [hgd]

/-- The restatement of `ownedLoop` over the zipped response. -/
theorem ownedLoop_zip (erc1155 : ERC1155) (address : String)
    (ids balances : List Int) (hlen : balances.length = ids.length) :
    ownedLoop erc1155 address ids balances
      = (balances.zip ids).filterMap (fun q =>
          ownedEntry erc1155 address q.1 q.2) := by
  unfold ownedLoop
  rw [show balances.enum = List.enumFrom 0 balances from rfl,
      ownedLoop_zip_aux erc1155 address ids balances 0 (by omega),
      List.drop_zero]

/-- A kept entry of the response loop carries the metadata of its own id. -/
theorem ownedEntry_id (erc1155 : ERC1155) (owner : String)
    (balance tokenId : Int) (x : EditionMetadataOwner)
    (hx : ownedEntry erc1155 owner balance tokenId = some x) :
    x.Metadata.Id = tokenId := by
  unfold ownedEntry at hx
  cases hg : erc1155.Get tokenId with
  | error er => rw [hg] at hx; exact Option.noConfusion hx
  | ok m =>
      rw [hg] at hx
      have hxx := Option.some.inj hx
      rw [← hxx]
      exact Get_ok_id erc1155 tokenId m hg

/-- A kept entry of the response loop is tagged with the loop's owner. -/
theorem ownedEntry_owner (erc1155 : ERC1155) (owner : String)
    (balance tokenId : Int) (x : EditionMetadataOwner)
    (hx : ownedEntry erc1155 owner balance tokenId = some x) :
    x.Owner = owner := by
  unfold ownedEntry at hx
  cases hg : erc1155.Get tokenId with
  | error er => rw [hg] at hx; exact Option.noConfusion hx
  | ok m =>
      rw [hg] at hx
      have hxx := Option.some.inj hx
      rw [← hxx]

/-- Every item produced by the collection loop is tagged with the loop's
owner address. -/
theorem ownedLoop_owner (erc1155 : ERC1155) (address : String)
    (ids balances : List Int) (x : EditionMetadataOwner)
    (hx : x ∈ ownedLoop erc1155 address ids balances) : x.Owner = address := by
  unfold ownedLoop at hx
  rw [List.mem_filterMap] at hx
  obtain ⟨p, hp, hpx⟩ := hx
  exact ownedEntry_owner erc1155 address p.2 (ids.getD p.1 0) x hpx

/-- The second components of the zipped balance response are strictly
ascending: they are the queried ids [0..maxId). -/
theorem pairwise_zip_ownedIds (maxId : Int) (balances : List Int)
    (hlen : balances.length = (ownedIds maxId).length) :
    (balances.zip (ownedIds maxId)).Pairwise (fun p q => p.2 < q.2) := by
  rw [List.pairwise_iff_getElem]
  intro i j hi hj hij
  have hzl : (balances.zip (ownedIds maxId)).length = balances.length := by
    rw [List.length_zip, hlen, min_self]
  rw [hzl] at hi hj
  have hi2 : i < (ownedIds maxId).length := by rw [← hlen]; exact hi
  have hj2 : j < (ownedIds maxId).length := by rw [← hlen]; exact hj
  rw [List.getElem_zip, List.getElem_zip]
  show (ownedIds maxId)[i] < (ownedIds maxId)[j]
  unfold ownedIds at hi2 hj2 ⊢
  rw [List.getElem_map, List.getElem_map, List.getElem_range,
      List.getElem_range]
  exact Int.ofNat_lt.mpr hij

/-- Claim C8: under a conforming balance response (one balance per queried
id), GetOwned returns exactly one item per response entry whose id resolves,
in response order, each tagged with the owner and the corresponding balance
of its entry; the item ids are strictly ascending (response order is already
ascending by id — no separate sort pass). -/
theorem getOwned_follows_response (erc1155 : ERC1155) (address : String)
    (maxId : Int) (balances : List Int)
    (hn : erc1155.nextTokenIdToMint = .ok maxId)
    (hb : erc1155.balanceOfBatch
        (ownedOwners erc1155 (substAddress erc1155 address) maxId)
        (ownedIds maxId) = .ok balances)
    (hlen : balances.length = (ownedIds maxId).length) :
    erc1155.GetOwned address
      = .ok ((balances.zip (ownedIds maxId)).filterMap (fun q =>
          ownedEntry erc1155 (substAddress erc1155 address) q.1 q.2))
    ∧ ((balances.zip (ownedIds maxId)).filterMap (fun q =>
          ownedEntry erc1155 (substAddress erc1155 address) q.1 q.2)).Pairwise
        (fun a b => a.Metadata.Id < b.Metadata.Id) := by
  constructor
  · unfold ERC1155.GetOwned
    simp only [hn]
    simp only [hb]
    rw [ownedLoop_zip erc1155 (substAddress erc1155 address)
      (ownedIds maxId) balances hlen]
  · rw [List.pairwise_filterMap]
    refine (pairwise_zip_ownedIds maxId balances hlen).imp ?_
    intro p q hpq x hx y hy
    rw [Option.mem_def] at hx hy
    rw [ownedEntry_id erc1155 _ p.1 p.2 x hx,
        ownedEntry_id erc1155 _ q.1 q.2 y hy]
    exact hpq

/-- Witness for C8 at a concrete behaviour: three queried ids, response
[1, 2, 3], id 1 and id 2 fail to resolve, id 0 succeeds. -/
theorem getOwned_follows_response_witness :
    chainA.GetOwned "a"
      = .ok ((([1, 2, 3] : List Int).zip (ownedIds 3)).filterMap (fun q =>
          ownedEntry chainA (substAddress chainA "a") q.1 q.2)) :=
  (getOwned_follows_response chainA "a" 3 [1, 2, 3] rfl rfl (by decide)).1

/-- Claim C9: a state-changing call issued on a module with no configured
signing key — in particular on any freshly constructed module, whose key is
the Go zero value nil — fails with SignerMissing and attempts zero network
calls. -/
theorem stateChanging_requires_signer (sdk : Erc721SdkModule)
    (submit : PrivateKey → Except ChainErr Int)
    (env : EthEnv) (address : String) (opt : SdkOptions)
    (sdk2 : Erc721SdkModule)
    (hkey : sdk.privateKey = none)
    (hnew : newErc721SdkModule env address opt = .ok sdk2) :
    stateChangingCall sdk submit = (.error .signerMissing, 0)
    ∧ stateChangingCall sdk2 submit = (.error .signerMissing, 0) := by
  have h2 : sdk2.privateKey = none := by
    unfold newErc721SdkModule at hnew
    cases hne : env.newERC721 address with
    | error er => rw [hne] at hnew; exact Except.noConfusion hnew
    | ok u =>
        rw [hne] at hnew
        have hr := Except.ok.inj hnew
        rw [← hr]
  constructor
  · unfold stateChangingCall
    rw [hkey]
  · unfold stateChangingCall
    rw [h2]

/-- Witness for C9: the guard fires on a key-less module built by
newErc721SdkModule. -/
theorem stateChanging_requires_signer_witness :
    stateChangingCall sdk0 submit0 = (.error .signerMissing, 0) :=
  (stateChanging_requires_signer sdk0 submit0 env0 "0xC"
    { IpfsGatewayUrl := "g" }
    { Address := "0xC", Options := { IpfsGatewayUrl := "g" },
      gatewayUrl := "g", privateKey := none, signerAddress := "" }
    rfl rfl).1

/-- Claim C10: calling GetOwned with the empty string substitutes the
configured signer address: the whole result equals the one for the signer
address, and every returned item is owned by the signer. -/
theorem getOwned_empty_address_uses_signer (erc1155 : ERC1155)
    (h : erc1155.signerAddress ≠ "") :
    erc1155.GetOwned "" = erc1155.GetOwned erc1155.signerAddress
    ∧ (∀ out, erc1155.GetOwned "" = .ok out
        → ∀ x ∈ out, x.Owner = erc1155.signerAddress) := by
  have e1 : substAddress erc1155 "" = erc1155.signerAddress := by
    unfold substAddress
    rw [if_pos rfl]
  have e2 : substAddress erc1155 erc1155.signerAddress
      = erc1155.signerAddress := by
    unfold substAddress
    rw [if_neg h]
  constructor
  · unfold ERC1155.GetOwned
    rw [e1, e2]
  · intro out hout x hx
    unfold ERC1155.GetOwned at hout
    rw [e1] at hout
    cases hnt : erc1155.nextTokenIdToMint with
    | error er => rw [hnt] at hout; exact Except.noConfusion hout
    | ok maxId =>
        simp only [hnt] at hout
        cases hbb : erc1155.balanceOfBatch
            (ownedOwners erc1155 erc1155.signerAddress maxId)
            (ownedIds maxId) with
        | error er =>
            simp only [hbb] at hout
            exact Except.noConfusion hout
        | ok balances =>
            simp only [hbb] at hout
            have hr := Except.ok.inj hout
            rw [← hr] at hx
            exact ownedLoop_owner erc1155 erc1155.signerAddress
              (ownedIds maxId) balances x hx

/-- Witness for C10: the signer address of this behaviour is nonempty, and
GetOwned with the empty address equals GetOwned at the signer address. -/
theorem getOwned_empty_address_uses_signer_witness :
    chainA.GetOwned "" = chainA.GetOwned chainA.signerAddress :=
  (getOwned_empty_address_uses_signer chainA (by decide)).1
